import Mathlib

/-!
# Verification of the ande-faucet admission pipeline

Shallow embedding of the faucet backend (TypeScript sources under
`backend/src`): the Redis-backed fixed-window rate limiter
(`RedisService.checkRateLimit`), the Cloudflare Turnstile captcha verifier
(`CaptchaService.verify`), and the request-admission pipeline
(`FaucetService.processRequest`, `checkCooldown`, `updateStats`,
`checkIPRateLimit`, `checkAddressRateLimit`, `isValidAddress`).

Time is modelled as a natural-number millisecond timestamp.  The counter
store is a partial map from keys to entries carrying a count and an
absolute expiry; a key is visible only while `now < expiresAt` (Redis TTL
expiry).  Store unavailability is modelled by a boolean `up` flag: when the
store is down every client operation throws, which the embedded functions
translate exactly as the source's `catch` blocks do (fail-open for
`checkRateLimit`, silently-swallowed failures for `updateStats`).
-/

/-- An entry of the rate-limit counter store: the stored count and the
absolute expiry timestamp in milliseconds (set via `SETEX`). -/
structure CounterEntry where
  count : Nat
  expiresAt : Nat
deriving Repr, DecidableEq

/-- The cached aggregate statistics blob (`stats` key). -/
structure FaucetStatsRec where
  totalRequests : Nat
  successfulRequests : Nat
  failedRequests : Nat
  totalDistributed : ℚ
deriving Repr, DecidableEq

/-- Per-transaction record stored under `request:<txHash>` with a 7-day TTL. -/
structure TxRecord where
  address : String
  txHash : String
  amount : ℚ
deriving Repr, DecidableEq

/-- State of the Redis store as seen by the service: rate-limit counters,
the stats blob, the per-transaction records, and whether the store is
reachable (`up = false` makes every client operation throw). -/
structure RedisState where
  counters : String → Option CounterEntry
  stats : Option FaucetStatsRec
  txRecords : String → Option TxRecord
  up : Bool

/-- `client.get` on a counter key: an entry is visible only until its
expiry has elapsed (Redis deletes the key once the TTL has passed). -/
def getCounter (st : RedisState) (key : String) (now : Nat) : Option CounterEntry :=
  match st.counters key with
  | some e => if now < e.expiresAt then some e else none
  | none => none

/-- `client.setex` on a counter key: store the entry, replacing any
previous one. -/
def setCounter (st : RedisState) (key : String) (e : CounterEntry) : RedisState :=
  { st with counters := fun k => if k = key then some e else st.counters k }

/-- Result shape of `RedisService.checkRateLimit`.  `remaining` is an
integer because the source computes `limit - count - 1` without clamping. -/
structure RateLimitResult where
  allowed : Bool
  remaining : Int
  resetAt : Nat
deriving Repr, DecidableEq

/-- `RedisService.checkRateLimit(key, limit, windowMs)` (redis.service.ts):
fixed-window counter.  If the store is down, every client call inside the
`try` throws and the `catch` returns the fail-open result
`{allowed: true, remaining: limit}`.  Otherwise: a missing (or expired)
key is created with value 1 and TTL `floor(windowMs/1000)` seconds
(`SETEX` with 0 seconds is rejected by Redis, which the `catch` again
turns into fail-open); a live key with `count ≥ limit` is denied with
`resetAt` from the remaining TTL; a live key below the limit is
incremented (`INCR` preserves the TTL). -/
def checkRateLimit (st : RedisState) (key : String) (limit : Nat) (windowMs : Nat)
    (now : Nat) : RateLimitResult × RedisState :=
  if st.up = false then
    ({ allowed := true, remaining := limit, resetAt := now + windowMs }, st)
  else
    match getCounter st key now with
    | none =>
        if windowMs / 1000 = 0 then
          ({ allowed := true, remaining := limit, resetAt := now + windowMs }, st)
        else
          ({ allowed := true, remaining := (limit : Int) - 1, resetAt := now + windowMs },
           setCounter st key { count := 1, expiresAt := now + windowMs / 1000 * 1000 })
    | some entry =>
        if limit ≤ entry.count then
          ({ allowed := false, remaining := 0,
             resetAt := now + (entry.expiresAt - now + 999) / 1000 * 1000 }, st)
        else
          ({ allowed := true, remaining := (limit : Int) - (entry.count : Int) - 1,
             resetAt := now + windowMs },
           setCounter st key { count := entry.count + 1, expiresAt := entry.expiresAt })

/-- Sequentially apply `checkRateLimit` for one key at a list of
timestamps, collecting the results and threading the store state. -/
def runCalls (key : String) (limit windowMs : Nat) (st : RedisState) :
    List Nat → List RateLimitResult × RedisState
  | [] => ([], st)
  | t :: ts =>
      let step := checkRateLimit st key limit windowMs t
      let rest := runCalls key limit windowMs step.2 ts
      (step.1 :: rest.1, rest.2)

/-- Result shape of `CaptchaService.verify`. -/
structure CaptchaResult where
  success : Bool
  errorCodes : Option (List String)
deriving Repr, DecidableEq

/-- Outcome of the outbound call to the Turnstile verification endpoint:
either a parsed response (its `success` flag and error codes), or a
failure (network error, non-2xx status — axios throws — or an
unparsable body). -/
inductive ProviderOutcome where
  | ok (resp : CaptchaResult)
  | err
deriving Repr, DecidableEq

/-- `CaptchaService.verify(token, ip)` (captcha.service.ts).  Returns the
verification result together with a flag recording whether the provider
endpoint was contacted.  Disabled captcha short-circuits to success; a
missing (empty) token short-circuits to `missing-input-response`; a
provider failure is caught and mapped to `verification-error`. -/
def captchaVerify (enabled : Bool) (token : String) (provider : ProviderOutcome) :
    CaptchaResult × Bool :=
  if enabled = false then
    ({ success := true, errorCodes := none }, false)
  else if token = "" then
    ({ success := false, errorCodes := some ["missing-input-response"] }, false)
  else
    match provider with
    | .ok resp => (resp, true)
    | .err => ({ success := false, errorCodes := some ["verification-error"] }, true)

/-- Faucet configuration (config/index.ts): the per-request amount and the
two `checkRateLimit` parameter pairs used by the pipeline. -/
structure Config where
  amount : ℚ
  ipMaxRequests : Nat
  ipWindowMs : Nat
  addrMaxRequests : Nat
  addrWindowMs : Nat

/-- Result of a confirmed on-chain send as returned by
`BlockchainService.sendTokens` (hash, checksummed destination, amount). -/
structure TxResult where
  hash : String
  toAddr : String
  amount : ℚ
deriving Repr, DecidableEq

/-- External-dependency oracle for one run of the pipeline: whether
captcha is administratively enabled, the outcome of the provider call,
the outcome of `getBalance`, and the outcome of `sendTokens` (an `Except`
error means the corresponding `await` threw). -/
structure Env where
  captchaEnabled : Bool
  provider : ProviderOutcome
  balance : Except Unit ℚ
  send : Except Unit TxResult

/-- The distinct failure exits of `FaucetService.processRequest`, one per
`throw` site (faucet.service.ts). -/
inductive FaucetError where
  | invalidAddress
  | captchaFailed
  | rateLimitedIP
  | rateLimitedAddress
  | balanceUnavailable
  | treasuryLow
  | chainError
deriving Repr, DecidableEq

/-- Success payload of `processRequest` (txHash, address, amount). -/
structure FaucetResponse where
  txHash : String
  address : String
  amount : ℚ
deriving Repr, DecidableEq

/-- The observable side-effecting steps of the pipeline, in the order the
source performs them. -/
inductive Event where
  | captchaVerify
  | rateLimitIP
  | rateLimitAddr
  | balanceRead
  | sendTokens
  | statsUpdate
deriving Repr, DecidableEq

/-- The full ordered step sequence of a successful run. -/
def pipelineOrder : List Event :=
  [.captchaVerify, .rateLimitIP, .rateLimitAddr, .balanceRead, .sendTokens, .statsUpdate]

/-- `FaucetService.isValidAddress`: the regex `^0x[a-fA-F0-9]\x7b40\x7d$`. -/
def isHexDigit (c : Char) : Bool :=
  (('0' ≤ c) && (c ≤ '9')) || (('a' ≤ c) && (c ≤ 'f')) || (('A' ≤ c) && (c ≤ 'F'))

/-- Address-format validation: `0x` followed by exactly 40 hex digits. -/
def isValidAddress (s : String) : Bool :=
  match s.data with
  | '0' :: 'x' :: rest => rest.length == 40 && rest.all isHexDigit
  | _ => false

/-- ASCII lowercasing of one character, as `String.prototype.toLowerCase`
acts on the characters of a hex address. -/
def lowerChar (c : Char) : Char :=
  if 'A' ≤ c && c ≤ 'Z' then Char.ofNat (c.toNat + 32) else c

/-- `address.toLowerCase()`: lowercase every character. -/
def toLowerStr (s : String) : String := ⟨s.data.map lowerChar⟩

/-- `FaucetService.checkIPRateLimit`: the IP-scoped counter key is the raw
IP under the `ip:` prefix. -/
def checkIPRateLimit (cfg : Config) (st : RedisState) (ip : String) (now : Nat) :
    RateLimitResult × RedisState :=
  checkRateLimit st ("ip:" ++ ip) cfg.ipMaxRequests cfg.ipWindowMs now

/-- `FaucetService.checkAddressRateLimit`: the address-scoped counter key
is the lowercased address under the `address:` prefix. -/
def checkAddressRateLimit (cfg : Config) (st : RedisState) (address : String) (now : Nat) :
    RateLimitResult × RedisState :=
  checkRateLimit st ("address:" ++ toLowerStr address) cfg.addrMaxRequests cfg.addrWindowMs now

/-- Default stats blob used when the `stats` key is absent. -/
def defaultStats : FaucetStatsRec :=
  { totalRequests := 0, successfulRequests := 0, failedRequests := 0, totalDistributed := 0 }

/-- `FaucetService.updateStats`: read the stats blob (the `get` wrapper
returns null when the store is down), bump `totalRequests`,
`successfulRequests` and `totalDistributed` (never `failedRequests`),
write the blob back and store the per-transaction record; every store
failure is caught, so this function never fails and leaves the store
unchanged when it is down. -/
def updateStats (cfg : Config) (st : RedisState) (address txHash : String) : RedisState :=
  if st.up then
    let s := st.stats.getD defaultStats
    { st with
      stats := some
        { totalRequests := s.totalRequests + 1
          successfulRequests := s.successfulRequests + 1
          failedRequests := s.failedRequests
          totalDistributed := s.totalDistributed + cfg.amount }
      txRecords := fun k =>
        if k = "request:" ++ txHash then
          some { address := address, txHash := txHash, amount := cfg.amount }
        else st.txRecords k }
  else st

/-- Result of one `processRequest` run: the returned value or thrown
error, the final store state, and the trace of pipeline steps that were
actually performed. -/
structure PipelineOutcome where
  result : Except FaucetError FaucetResponse
  state : RedisState
  trace : List Event

/-- `FaucetService.processRequest` (faucet.service.ts): validate the
address format, verify the captcha, check the IP-scoped then the
address-scoped rate limit, require the treasury balance to be at least
twice the configured amount, send the tokens, and update the stats.  Each
failing step throws, which aborts every later step. -/
def processRequest (cfg : Config) (env : Env) (st : RedisState)
    (address captchaToken ipAddress : String) (now : Nat) : PipelineOutcome :=
  if isValidAddress address = false then
    { result := .error .invalidAddress, state := st, trace := [] }
  else if (captchaVerify env.captchaEnabled captchaToken env.provider).1.success = false then
    { result := .error .captchaFailed, state := st, trace := [.captchaVerify] }
  else if (checkIPRateLimit cfg st ipAddress now).1.allowed = false then
    { result := .error .rateLimitedIP, state := (checkIPRateLimit cfg st ipAddress now).2,
      trace := [.captchaVerify, .rateLimitIP] }
  else if (checkAddressRateLimit cfg (checkIPRateLimit cfg st ipAddress now).2
      address now).1.allowed = false then
    { result := .error .rateLimitedAddress,
      state := (checkAddressRateLimit cfg (checkIPRateLimit cfg st ipAddress now).2
        address now).2,
      trace := [.captchaVerify, .rateLimitIP, .rateLimitAddr] }
  else
    match env.balance with
    | .error _ =>
        { result := .error .balanceUnavailable,
          state := (checkAddressRateLimit cfg (checkIPRateLimit cfg st ipAddress now).2
            address now).2,
          trace := [.captchaVerify, .rateLimitIP, .rateLimitAddr, .balanceRead] }
    | .ok balance =>
        if balance < cfg.amount * 2 then
          { result := .error .treasuryLow,
            state := (checkAddressRateLimit cfg (checkIPRateLimit cfg st ipAddress now).2
              address now).2,
            trace := [.captchaVerify, .rateLimitIP, .rateLimitAddr, .balanceRead] }
        else
          match env.send with
          | .error _ =>
              { result := .error .chainError,
                state := (checkAddressRateLimit cfg (checkIPRateLimit cfg st ipAddress now).2
                  address now).2,
                trace := [.captchaVerify, .rateLimitIP, .rateLimitAddr,
                          .balanceRead, .sendTokens] }
          | .ok tx =>
              { result := .ok { txHash := tx.hash, address := tx.toAddr,
                                amount := tx.amount },
                state := updateStats cfg
                  (checkAddressRateLimit cfg (checkIPRateLimit cfg st ipAddress now).2
                    address now).2
                  address tx.hash,
                trace := pipelineOrder }

/-- Result of `FaucetService.checkCooldown`. -/
structure CooldownStatus where
  canRequest : Bool
  cooldownEndsAt : Option Nat
deriving Repr, DecidableEq

/-- `FaucetService.checkCooldown` (behind `GET /cooldown/:address`): runs
`checkRateLimit` on the very same address-scoped key, with the same limit
and window, that `processRequest` uses. -/
def checkCooldown (cfg : Config) (st : RedisState) (address : String) (now : Nat) :
    CooldownStatus × RedisState :=
  if (checkRateLimit st ("address:" ++ toLowerStr address)
      cfg.addrMaxRequests cfg.addrWindowMs now).1.allowed then
    ({ canRequest := true, cooldownEndsAt := none },
     (checkRateLimit st ("address:" ++ toLowerStr address)
       cfg.addrMaxRequests cfg.addrWindowMs now).2)
  else
    ({ canRequest := false,
       cooldownEndsAt := some (checkRateLimit st ("address:" ++ toLowerStr address)
         cfg.addrMaxRequests cfg.addrWindowMs now).1.resetAt },
     (checkRateLimit st ("address:" ++ toLowerStr address)
       cfg.addrMaxRequests cfg.addrWindowMs now).2)

/-- Number of pipeline steps performed before each failure exit. -/
def errSteps : FaucetError → Nat
  | .invalidAddress => 0
  | .captchaFailed => 1
  | .rateLimitedIP => 2
  | .rateLimitedAddress => 3
  | .balanceUnavailable => 4
  | .treasuryLow => 4
  | .chainError => 5

/-- An empty, reachable store. -/
def st0 : RedisState :=
  { counters := fun _ => none, stats := none, txRecords := fun _ => none, up := true }

/-- An empty store whose backing service is unreachable. -/
def stDown : RedisState :=
  { counters := fun _ => none, stats := none, txRecords := fun _ => none, up := false }

/-- The default configuration values of config/index.ts: amount 10,
5 requests per hour per IP, 1 request per 24 h per address. -/
def cfg0 : Config :=
  { amount := 10, ipMaxRequests := 5, ipWindowMs := 3600000,
    addrMaxRequests := 1, addrWindowMs := 86400000 }

/-- A syntactically valid test address (40 hex digits). -/
def addr0 : String := "0x742d35cc6634c0532925a3b844bc9e7595f0beb1"

/-- A concrete confirmed-send result used by test runs. -/
def tx0 : TxResult := { hash := "0xdeadbeef", toAddr := addr0, amount := 10 }

/-- Oracle: captcha disabled, treasury balance 15 (below 2 × 10),
send would succeed. -/
def envLow : Env :=
  { captchaEnabled := false, provider := .err, balance := .ok 15, send := .ok tx0 }

/-- Oracle: captcha disabled, treasury balance 1000, send succeeds. -/
def envOk : Env :=
  { captchaEnabled := false, provider := .err, balance := .ok 1000, send := .ok tx0 }

/-! ## Helper lemmas -/

/-- `checkRateLimit` only ever touches the counter of its own key: the
stats blob, the transaction records, the availability flag and every
other counter are left unchanged. -/
theorem checkRateLimit_frame (st : RedisState) (key : String) (limit windowMs now : Nat) :
    (checkRateLimit st key limit windowMs now).2.stats = st.stats
    ∧ (checkRateLimit st key limit windowMs now).2.txRecords = st.txRecords
    ∧ (checkRateLimit st key limit windowMs now).2.up = st.up
    ∧ ∀ k, k ≠ key → (checkRateLimit st key limit windowMs now).2.counters k = st.counters k := by
  unfold checkRateLimit
  split
  · exact ⟨rfl, rfl, rfl, fun k _ => rfl⟩
  · split
    · split
      · exact ⟨rfl, rfl, rfl, fun k _ => rfl⟩
      · exact ⟨rfl, rfl, rfl, fun k hk => by simp [setCounter, hk]⟩
    · split
      · exact ⟨rfl, rfl, rfl, fun k _ => rfl⟩
      · exact ⟨rfl, rfl, rfl, fun k hk => by simp [setCounter, hk]⟩

/-- The `address:` and `ip:` key namespaces never collide. -/
theorem addr_ip_key_ne (s t : String) : ("address:" ++ s) ≠ ("ip:" ++ t) := by
  intro h
  obtain ⟨ls⟩ := s
  obtain ⟨lt⟩ := t
  have h2 : ('a' :: "ddress:".data ++ ls) = ('i' :: "p:".data ++ lt) :=
    congrArg String.data h
  have h3 : 'a' = 'i' := (List.cons.injEq _ _ _ _).mp h2 |>.1
  exact absurd h3 (by decide)

/-! ## Claim theorems -/

/-- C6: for every key, limit and window, if the counter store is
unreachable (any store operation inside `checkRateLimit` throws), the
check returns `allowed = true` with `remaining = limit` — and leaves the
store untouched — rather than denying the request: rate limiting fails
open on store failure. -/
theorem checkRateLimit_fail_open (st : RedisState) (key : String)
    (limit windowMs now : Nat) (hdown : st.up = false) :
    checkRateLimit st key limit windowMs now
      = ({ allowed := true, remaining := limit, resetAt := now + windowMs }, st) := by
  simp [checkRateLimit, hdown]

/-- Witness for C6 at a concrete unreachable store. -/
theorem checkRateLimit_fail_open_witness :
    stDown.up = false ∧
    checkRateLimit stDown "ip:1.2.3.4" 5 3600000 0
      = ({ allowed := true, remaining := 5, resetAt := 3600000 }, stDown) :=
  ⟨rfl, checkRateLimit_fail_open stDown "ip:1.2.3.4" 5 3600000 0 rfl⟩

/-- C7: the captcha verifier (i) returns success for every token when
administratively disabled, without contacting the provider; (ii) when
enabled and the token is missing, returns failure with exactly
`missing-input-response` without contacting the provider; (iii) when
enabled with a token present and the provider call fails, returns failure
with exactly `verification-error` instead of throwing. -/
theorem captchaVerify_contract (enabled : Bool) (token : String)
    (provider : ProviderOutcome) :
    (enabled = false →
      captchaVerify enabled token provider = ({ success := true, errorCodes := none }, false))
    ∧ (enabled = true → token = "" →
      captchaVerify enabled token provider
        = ({ success := false, errorCodes := some ["missing-input-response"] }, false))
    ∧ (enabled = true → token ≠ "" → provider = .err →
      captchaVerify enabled token provider
        = ({ success := false, errorCodes := some ["verification-error"] }, true)) := by
  refine ⟨fun h => by simp [captchaVerify, h], fun h ht => by simp [captchaVerify, h, ht],
    fun h ht hp => by simp [captchaVerify, h, ht, hp]⟩

/-- Witness for C7: all three cases at concrete inputs. -/
theorem captchaVerify_contract_witness :
    captchaVerify false "sometoken" .err = ({ success := true, errorCodes := none }, false)
    ∧ captchaVerify true "" (.ok { success := true, errorCodes := none })
        = ({ success := false, errorCodes := some ["missing-input-response"] }, false)
    ∧ captchaVerify true "sometoken" .err
        = ({ success := false, errorCodes := some ["verification-error"] }, true) :=
  ⟨(captchaVerify_contract false "sometoken" .err).1 rfl,
   (captchaVerify_contract true "" (.ok { success := true, errorCodes := none })).2.1 rfl rfl,
   (captchaVerify_contract true "sometoken" .err).2.2 rfl (by decide) rfl⟩

/-- C9: the address-scoped rate limit key is the lowercased address under
the `address:` prefix, so two addresses that agree after lowercasing use
the identical counter and get identical rate-limit behaviour. -/
theorem checkAddressRateLimit_case_insensitive (cfg : Config) (st : RedisState)
    (a b : String) (now : Nat) :
    checkAddressRateLimit cfg st a now
      = checkRateLimit st ("address:" ++ toLowerStr a) cfg.addrMaxRequests cfg.addrWindowMs now
    ∧ (toLowerStr a = toLowerStr b →
        checkAddressRateLimit cfg st a now = checkAddressRateLimit cfg st b now) := by
  refine ⟨rfl, fun h => ?_⟩
  unfold checkAddressRateLimit
  rw [h]

/-- Witness for C9 at a concrete case-variant pair. -/
theorem checkAddressRateLimit_case_insensitive_witness :
    toLowerStr "0x742D35CC6634c0532925a3b844bC9E7595F0BEB1" = toLowerStr addr0
    ∧ checkAddressRateLimit cfg0 st0 "0x742D35CC6634c0532925a3b844bC9E7595F0BEB1" 0
        = checkAddressRateLimit cfg0 st0 addr0 0 :=
  ⟨by decide,
   (checkAddressRateLimit_case_insensitive cfg0 st0
     "0x742D35CC6634c0532925a3b844bC9E7595F0BEB1" addr0 0).2 (by decide)⟩

/-- C1: every run of `processRequest` performs the pipeline steps in the
fixed order captcha → IP rate limit → address rate limit → balance read →
send → stats update, each run's trace being a prefix of that order (so a
failing step prevents every later step); every thrown error leaves
exactly the steps preceding-and-including its own step in the trace; and
an address failing the 40-hex-digit format check is rejected with the
invalid-address error before any captcha, rate-limit, balance or chain
operation, with the store untouched. -/
theorem processRequest_step_order (cfg : Config) (env : Env) (st : RedisState)
    (address token ip : String) (now : Nat) :
    (∃ n, (processRequest cfg env st address token ip now).trace = pipelineOrder.take n)
    ∧ (∀ e, (processRequest cfg env st address token ip now).result = .error e →
        (processRequest cfg env st address token ip now).trace = pipelineOrder.take (errSteps e))
    ∧ (isValidAddress address = false →
        processRequest cfg env st address token ip now
          = { result := .error .invalidAddress, state := st, trace := [] }) := by
  refine ⟨?_, ?_, ?_⟩
  · unfold processRequest
    repeat' split
    all_goals first
      | exact ⟨0, rfl⟩ | exact ⟨1, rfl⟩ | exact ⟨2, rfl⟩ | exact ⟨3, rfl⟩
      | exact ⟨4, rfl⟩ | exact ⟨5, rfl⟩ | exact ⟨6, rfl⟩
  · unfold processRequest
    repeat' split
    all_goals intro e he
    all_goals first
      | (injection he with h; subst h; rfl)
      | simp at he
  · intro h
    simp [processRequest, h]

/-- Witness for C1: the malformed address `0xZZZZ` is rejected with the
invalid-address error, an empty step trace, and an untouched store. -/
theorem processRequest_step_order_witness :
    isValidAddress "0xZZZZ" = false
    ∧ processRequest cfg0 envOk st0 "0xZZZZ" "tok" "1.2.3.4" 0
        = { result := .error .invalidAddress, state := st0, trace := [] } :=
  ⟨by decide,
   (processRequest_step_order cfg0 envOk st0 "0xZZZZ" "tok" "1.2.3.4" 0).2.2 (by decide)⟩

/-- C4: for a run that reaches the balance-check step (valid address,
captcha passed, both rate limits allowed) with `getBalance` returning B:
if B < 2 × amount the request fails with the treasury-low error and the
send step is never performed; if B ≥ 2 × amount the pipeline proceeds to
the send step. -/
theorem processRequest_treasury_guard (cfg : Config) (env : Env) (st : RedisState)
    (address token ip : String) (now : Nat) (B : ℚ)
    (hb : env.balance = .ok B)
    (hv : isValidAddress address = true)
    (hc : (captchaVerify env.captchaEnabled token env.provider).1.success = true)
    (hip : (checkIPRateLimit cfg st ip now).1.allowed = true)
    (had : (checkAddressRateLimit cfg (checkIPRateLimit cfg st ip now).2
      address now).1.allowed = true) :
    (B < cfg.amount * 2 →
      (processRequest cfg env st address token ip now).result = .error .treasuryLow
      ∧ Event.sendTokens ∉ (processRequest cfg env st address token ip now).trace)
    ∧ (cfg.amount * 2 ≤ B →
      Event.sendTokens ∈ (processRequest cfg env st address token ip now).trace) := by
  constructor
  · intro hlt
    refine ⟨?_, ?_⟩ <;> simp [processRequest, hv, hc, hip, had, hb, hlt]
  · intro hge
    have hnl : ¬ (B < cfg.amount * 2) := not_lt.mpr hge
    cases hs : env.send with
    | error e => simp [processRequest, hv, hc, hip, had, hb, hnl, hs]
    | ok tx => simp [processRequest, hv, hc, hip, had, hb, hnl, hs, pipelineOrder]

/-- Witness for C4: with balance 15 < 20 the run fails treasury-low
without reaching the send step; with balance 1000 ≥ 20 the send step is
reached. -/
theorem processRequest_treasury_guard_witness :
    ((processRequest cfg0 envLow st0 addr0 "tok" "1.2.3.4" 0).result = .error .treasuryLow
      ∧ Event.sendTokens ∉ (processRequest cfg0 envLow st0 addr0 "tok" "1.2.3.4" 0).trace)
    ∧ Event.sendTokens ∈ (processRequest cfg0 envOk st0 addr0 "tok" "1.2.3.4" 0).trace :=
  ⟨(processRequest_treasury_guard cfg0 envLow st0 addr0 "tok" "1.2.3.4" 0 15 rfl
      (by decide) rfl (by decide) (by decide)).1 (by norm_num [cfg0]),
   (processRequest_treasury_guard cfg0 envOk st0 addr0 "tok" "1.2.3.4" 0 1000 rfl
      (by decide) rfl (by decide) (by decide)).2 (by norm_num [cfg0])⟩

/-- Helper: every run either throws (leaving the stats blob exactly as it
was) or returns the send result with final state `updateStats` applied to
the post-rate-limit state. -/
theorem processRequest_state_cases (cfg : Config) (env : Env) (st : RedisState)
    (address token ip : String) (now : Nat) :
    (∃ e, (processRequest cfg env st address token ip now).result = .error e
        ∧ (processRequest cfg env st address token ip now).state.stats = st.stats)
    ∨ (∃ tx, env.send = .ok tx
        ∧ (processRequest cfg env st address token ip now).result
            = .ok { txHash := tx.hash, address := tx.toAddr, amount := tx.amount }
        ∧ (processRequest cfg env st address token ip now).state
            = updateStats cfg
                (checkAddressRateLimit cfg (checkIPRateLimit cfg st ip now).2 address now).2
                address tx.hash) := by
  have h1 : (checkIPRateLimit cfg st ip now).2.stats = st.stats :=
    (checkRateLimit_frame st ("ip:" ++ ip) cfg.ipMaxRequests cfg.ipWindowMs now).1
  have h2 : (checkAddressRateLimit cfg (checkIPRateLimit cfg st ip now).2
      address now).2.stats = st.stats :=
    ((checkRateLimit_frame (checkIPRateLimit cfg st ip now).2
      ("address:" ++ toLowerStr address) cfg.addrMaxRequests cfg.addrWindowMs now).1).trans h1
  unfold processRequest
  repeat' split
  · exact .inl ⟨.invalidAddress, rfl, rfl⟩
  · exact .inl ⟨.captchaFailed, rfl, rfl⟩
  · exact .inl ⟨.rateLimitedIP, rfl, h1⟩
  · exact .inl ⟨.rateLimitedAddress, rfl, h2⟩
  · exact .inl ⟨.balanceUnavailable, rfl, h2⟩
  · exact .inl ⟨.treasuryLow, rfl, h2⟩
  · next heq => exact .inl ⟨.chainError, rfl, h2⟩
  · next tx heq => exact .inr ⟨tx, heq, rfl, rfl⟩

/-- Helper: shape of a full successful run with a reachable store. -/
theorem processRequest_run_ok (cfg : Config) (env : Env) (st : RedisState)
    (address token ip : String) (now : Nat) (tx : TxResult) (B : ℚ)
    (hv : isValidAddress address = true)
    (hc : (captchaVerify env.captchaEnabled token env.provider).1.success = true)
    (hip : (checkIPRateLimit cfg st ip now).1.allowed = true)
    (had : (checkAddressRateLimit cfg (checkIPRateLimit cfg st ip now).2
      address now).1.allowed = true)
    (hb : env.balance = .ok B) (hB : ¬ (B < cfg.amount * 2))
    (hs : env.send = .ok tx) :
    processRequest cfg env st address token ip now
      = { result := .ok { txHash := tx.hash, address := tx.toAddr, amount := tx.amount },
          state := updateStats cfg
            (checkAddressRateLimit cfg (checkIPRateLimit cfg st ip now).2 address now).2
            address tx.hash,
          trace := pipelineOrder } := by
  simp [processRequest, hv, hc, hip, had, hb, hB, hs]

/-- Helper: shape of a run with an unreachable store: both rate-limit
checks fail open, `updateStats` swallows its failures, and the run
returns the send result with the store completely untouched. -/
theorem processRequest_run_down (cfg : Config) (env : Env) (st : RedisState)
    (address token ip : String) (now : Nat) (tx : TxResult) (B : ℚ)
    (hdown : st.up = false)
    (hv : isValidAddress address = true)
    (hc : (captchaVerify env.captchaEnabled token env.provider).1.success = true)
    (hb : env.balance = .ok B) (hB : ¬ (B < cfg.amount * 2))
    (hs : env.send = .ok tx) :
    processRequest cfg env st address token ip now
      = { result := .ok { txHash := tx.hash, address := tx.toAddr, amount := tx.amount },
          state := st, trace := pipelineOrder } := by
  simp [processRequest, hv, hc, hb, hB, hs, checkIPRateLimit, checkAddressRateLimit,
    checkRateLimit, hdown, updateStats]

/-- C10: a failing stats update does not fail the request. `updateStats`
swallows every store failure (with the store down it is the identity on
the store), and a run whose send has been confirmed still returns the
successful transaction result even though the aggregate stats blob and
the 7-day transaction record are left un-updated. -/
theorem processRequest_success_despite_stats_failure
    (cfg : Config) (env : Env) (st : RedisState)
    (address token ip : String) (now : Nat) (tx : TxResult) (B : ℚ)
    (hdown : st.up = false)
    (hv : isValidAddress address = true)
    (hc : (captchaVerify env.captchaEnabled token env.provider).1.success = true)
    (hb : env.balance = .ok B) (hB : ¬ (B < cfg.amount * 2))
    (hs : env.send = .ok tx) :
    (∀ st' a h, st'.up = false → updateStats cfg st' a h = st')
    ∧ (processRequest cfg env st address token ip now).result
        = .ok { txHash := tx.hash, address := tx.toAddr, amount := tx.amount }
    ∧ (processRequest cfg env st address token ip now).state.stats = st.stats
    ∧ (processRequest cfg env st address token ip now).state.txRecords = st.txRecords := by
  have h := processRequest_run_down cfg env st address token ip now tx B hdown hv hc hb hB hs
  refine ⟨fun st' a hh hd => by simp [updateStats, hd], ?_, ?_, ?_⟩ <;> rw [h]

/-- Witness for C10: a concrete confirmed send with the store down
returns success while the stats blob and transaction records stay
untouched. -/
theorem processRequest_success_despite_stats_failure_witness :
    updateStats cfg0 stDown addr0 "0xdeadbeef" = stDown
    ∧ (processRequest cfg0 envOk stDown addr0 "tok" "1.2.3.4" 0).result
        = .ok { txHash := "0xdeadbeef", address := addr0, amount := 10 }
    ∧ (processRequest cfg0 envOk stDown addr0 "tok" "1.2.3.4" 0).state.stats = none := by
  have h := processRequest_success_despite_stats_failure cfg0 envOk stDown addr0 "tok"
    "1.2.3.4" 0 tx0 1000 rfl (by decide) rfl rfl (by norm_num [cfg0]) rfl
  exact ⟨h.1 stDown addr0 "0xdeadbeef" rfl, h.2.1, h.2.2.1⟩

/-- C5 (amended): when the counter store is reachable, a run that returns
a successful send increments `totalRequests` and `successfulRequests` by
exactly 1 and `totalDistributed` by exactly the configured amount, and
leaves `failedRequests` untouched; a run that throws at any stage leaves
the whole stats blob unchanged; `failedRequests` is incremented on no
path. -/
theorem processRequest_stats_counters (cfg : Config) (env : Env) (st : RedisState)
    (address token ip : String) (now : Nat) :
    (∀ e, (processRequest cfg env st address token ip now).result = .error e →
      (processRequest cfg env st address token ip now).state.stats = st.stats)
    ∧ (st.up = true →
      ∀ r, (processRequest cfg env st address token ip now).result = .ok r →
      (processRequest cfg env st address token ip now).state.stats
        = some { totalRequests := (st.stats.getD defaultStats).totalRequests + 1,
                 successfulRequests := (st.stats.getD defaultStats).successfulRequests + 1,
                 failedRequests := (st.stats.getD defaultStats).failedRequests,
                 totalDistributed := (st.stats.getD defaultStats).totalDistributed
                   + cfg.amount }) := by
  have hup' : (checkAddressRateLimit cfg (checkIPRateLimit cfg st ip now).2
      address now).2.up = st.up :=
    ((checkRateLimit_frame (checkIPRateLimit cfg st ip now).2
      ("address:" ++ toLowerStr address) cfg.addrMaxRequests cfg.addrWindowMs now).2.2.1).trans
    ((checkRateLimit_frame st ("ip:" ++ ip) cfg.ipMaxRequests cfg.ipWindowMs now).2.2.1)
  have hstats' : (checkAddressRateLimit cfg (checkIPRateLimit cfg st ip now).2
      address now).2.stats = st.stats :=
    ((checkRateLimit_frame (checkIPRateLimit cfg st ip now).2
      ("address:" ++ toLowerStr address) cfg.addrMaxRequests cfg.addrWindowMs now).1).trans
    ((checkRateLimit_frame st ("ip:" ++ ip) cfg.ipMaxRequests cfg.ipWindowMs now).1)
  rcases processRequest_state_cases cfg env st address token ip now with
    ⟨e, he, hst⟩ | ⟨tx, _, hres, hst⟩
  · refine ⟨fun e' _ => hst, fun hup r hr => ?_⟩
    rw [he] at hr
    exact absurd hr (by simp)
  · refine ⟨fun e' he' => ?_, fun hup r hr => ?_⟩
    · rw [hres] at he'
      exact absurd he' (by simp)
    · rw [hst]
      rw [updateStats, if_pos (by rw [hup']; exact hup), hstats']

/-- Witness for C5: a concrete successful run starting from an empty
stats blob ends with exactly one total request, one successful request,
zero failed requests, and amount 10 distributed. -/
theorem processRequest_stats_counters_witness :
    (processRequest cfg0 envOk st0 addr0 "tok" "1.2.3.4" 0).state.stats
      = some { totalRequests := 1, successfulRequests := 1, failedRequests := 0,
               totalDistributed := 10 } := by
  have hrun := processRequest_run_ok cfg0 envOk st0 addr0 "tok" "1.2.3.4" 0 tx0 1000
    (by decide) rfl (by decide) (by decide) rfl (by norm_num [cfg0]) rfl
  have h := (processRequest_stats_counters cfg0 envOk st0 addr0 "tok" "1.2.3.4" 0).2 rfl
    { txHash := tx0.hash, address := tx0.toAddr, amount := tx0.amount } (by rw [hrun])
  simpa [st0, defaultStats, cfg0] using h

/-- Counterexample to C5 as stated: with the counter store unreachable
during the run, a confirmed successful send returns success yet leaves
the stats blob (and so `successfulRequests`, `totalRequests`,
`totalDistributed`) completely unchanged — the increments are not
unconditional. -/
theorem processRequest_stats_counters_cex :
    (processRequest cfg0 envOk stDown addr0 "tok" "1.2.3.4" 0).result
      = .ok { txHash := "0xdeadbeef", address := addr0, amount := 10 }
    ∧ (processRequest cfg0 envOk stDown addr0 "tok" "1.2.3.4" 0).state.stats = none := by
  have h := processRequest_run_down cfg0 envOk stDown addr0 "tok" "1.2.3.4" 0 tx0 1000
    rfl (by decide) rfl rfl (by norm_num [cfg0]) rfl
  rw [h]
  exact ⟨rfl, rfl⟩

/-- Helper: a visible counter entry is stored and not yet expired. -/
theorem getCounter_some (st : RedisState) (key : String) (now : Nat) (e : CounterEntry)
    (h : getCounter st key now = some e) :
    st.counters key = some e ∧ now < e.expiresAt := by
  unfold getCounter at h
  split at h
  · split at h
    · next hlt => cases h; next heq => exact ⟨heq, hlt⟩
    · cases h
  · cases h

/-- Helper: a call on a live entry that has reached the limit is denied
and leaves the store exactly as it was. -/
theorem checkRateLimit_denies (st : RedisState) (key : String) (limit windowMs now : Nat)
    (e : CounterEntry) (hup : st.up = true) (hc : st.counters key = some e)
    (hlive : now < e.expiresAt) (hge : limit ≤ e.count) :
    checkRateLimit st key limit windowMs now
      = ({ allowed := false, remaining := 0,
           resetAt := now + (e.expiresAt - now + 999) / 1000 * 1000 }, st) := by
  have hg : getCounter st key now = some e := by simp [getCounter, hc, hlive]
  simp [checkRateLimit, hup, hg, hge]

/-- Helper: branch equation — a missing or expired key with a nonzero
window is created with count 1 and the window's expiry. -/
theorem checkRateLimit_fresh (st : RedisState) (key : String) (limit windowMs now : Nat)
    (hup : st.up = true) (hg : getCounter st key now = none) (hw : windowMs / 1000 ≠ 0) :
    checkRateLimit st key limit windowMs now
      = ({ allowed := true, remaining := (limit : Int) - 1, resetAt := now + windowMs },
         setCounter st key { count := 1, expiresAt := now + windowMs / 1000 * 1000 }) := by
  simp [checkRateLimit, hup, hg, hw]

/-- Helper: branch equation — a missing key with a sub-second window hits
the rejected zero-second `SETEX` and falls into the fail-open branch. -/
theorem checkRateLimit_fresh_zero (st : RedisState) (key : String) (limit windowMs now : Nat)
    (hup : st.up = true) (hg : getCounter st key now = none) (hw : windowMs / 1000 = 0) :
    checkRateLimit st key limit windowMs now
      = ({ allowed := true, remaining := limit, resetAt := now + windowMs }, st) := by
  simp [checkRateLimit, hup, hg, hw]

/-- Helper: branch equation — a live entry below the limit is incremented
in place, keeping its expiry. -/
theorem checkRateLimit_incr (st : RedisState) (key : String) (limit windowMs now : Nat)
    (e : CounterEntry) (hup : st.up = true) (hg : getCounter st key now = some e)
    (hlt : e.count < limit) :
    checkRateLimit st key limit windowMs now
      = ({ allowed := true, remaining := (limit : Int) - (e.count : Int) - 1,
           resetAt := now + windowMs },
         setCounter st key { count := e.count + 1, expiresAt := e.expiresAt }) := by
  simp [checkRateLimit, hup, hg, Nat.not_le.mpr hlt]

/-- Helper: the counter visible at the freshly written key. -/
theorem getCounter_setCounter_self (st : RedisState) (key : String) (e : CounterEntry)
    (now : Nat) :
    getCounter (setCounter st key e) key now
      = if now < e.expiresAt then some e else none := by
  simp [getCounter, setCounter]

/-- Helper: once the stored count has reached the limit, any sequence of
further calls made before the entry expires is denied throughout and
never changes the store. -/
theorem runCalls_saturated (key : String) (limit windowMs : Nat) (e : CounterEntry)
    (hge : limit ≤ e.count) (ts : List Nat) :
    ∀ st : RedisState, st.up = true → st.counters key = some e →
      (∀ t ∈ ts, t < e.expiresAt) →
      (∀ r ∈ (runCalls key limit windowMs st ts).1, r.allowed = false)
      ∧ (runCalls key limit windowMs st ts).2 = st := by
  induction ts with
  | nil =>
      intro st hup hc hts
      exact ⟨fun r hr => by simp [runCalls] at hr, by simp [runCalls]⟩
  | cons t ts ih =>
      intro st hup hc hts
      have hd := checkRateLimit_denies st key limit windowMs t e hup hc
        (hts t (by simp)) hge
      have hrec := ih st hup hc (fun u hu => hts u (by simp [hu]))
      constructor
      · intro r hr
        simp only [runCalls] at hr
        rw [hd] at hr
        rcases List.mem_cons.mp hr with h1 | h1
        · rw [h1]
        · exact hrec.1 r h1
      · simp only [runCalls]
        rw [hd]
        exact hrec.2

/-- C2 (amended, positive limit): while a call is allowed, the counter
visible after the call never exceeds the limit; a call on a live entry
whose count has reached the limit is denied and leaves the store
unchanged, and therefore every further call on that key before the entry
expires keeps being denied. -/
theorem checkRateLimit_count_invariant (st : RedisState) (key : String)
    (limit windowMs now : Nat) (hup : st.up = true) (hpos : 1 ≤ limit) :
    ((checkRateLimit st key limit windowMs now).1.allowed = true →
      ∀ e, getCounter (checkRateLimit st key limit windowMs now).2 key now = some e →
        e.count ≤ limit)
    ∧ (∀ e, getCounter st key now = some e → limit ≤ e.count →
        (checkRateLimit st key limit windowMs now).1.allowed = false
        ∧ (checkRateLimit st key limit windowMs now).2 = st)
    ∧ (∀ e, st.counters key = some e → limit ≤ e.count →
        ∀ ts : List Nat, (∀ t ∈ ts, t < e.expiresAt) →
          (∀ r ∈ (runCalls key limit windowMs st ts).1, r.allowed = false)
          ∧ (runCalls key limit windowMs st ts).2 = st) := by
  refine ⟨?_, ?_, ?_⟩
  · intro hall e' hpost
    rcases hg : getCounter st key now with _ | entry
    · by_cases hw : windowMs / 1000 = 0
      · rw [checkRateLimit_fresh_zero st key limit windowMs now hup hg hw] at hpost
        rw [hg] at hpost
        cases hpost
      · rw [checkRateLimit_fresh st key limit windowMs now hup hg hw,
          getCounter_setCounter_self] at hpost
        split at hpost
        · cases hpost
          exact hpos
        · cases hpost
    · by_cases hge : limit ≤ entry.count
      · obtain ⟨hc, hlive⟩ := getCounter_some st key now entry hg
        rw [checkRateLimit_denies st key limit windowMs now entry hup hc hlive hge] at hall
        cases hall
      · rw [checkRateLimit_incr st key limit windowMs now entry hup hg
            (Nat.lt_of_not_le hge), getCounter_setCounter_self] at hpost
        split at hpost
        · cases hpost
          exact Nat.succ_le_of_lt (Nat.lt_of_not_le hge)
        · cases hpost
  · intro e hg hge
    obtain ⟨hc, hlive⟩ := getCounter_some st key now e hg
    have hd := checkRateLimit_denies st key limit windowMs now e hup hc hlive hge
    rw [hd]
    exact ⟨rfl, rfl⟩
  · intro e hc hge ts hts
    exact runCalls_saturated key limit windowMs e hge ts st hup hc hts

/-- Counterexample to C2 as stated: with limit 0 the very first call on a
fresh key is allowed yet stores a counter of 1, which exceeds the limit —
the invariant needs the configured limit to be positive. -/
theorem checkRateLimit_count_invariant_cex :
    (checkRateLimit st0 "k" 0 60000 0).1.allowed = true
    ∧ getCounter (checkRateLimit st0 "k" 0 60000 0).2 "k" 0
        = some { count := 1, expiresAt := 60000 }
    ∧ 0 < (1 : Nat) := by
  decide

/-- A store holding a saturated counter for key `k` (count 2 of limit 2,
expiring at 1000). -/
def stSat : RedisState :=
  { counters := fun k => if k = "k" then some { count := 2, expiresAt := 1000 } else none,
    stats := none, txRecords := fun _ => none, up := true }

/-- Witness for C2 at a concrete saturated store: the call is denied, the
store is unchanged, and two further calls inside the window stay denied. -/
theorem checkRateLimit_count_invariant_witness :
    (checkRateLimit stSat "k" 2 60000 0).1.allowed = false
    ∧ (checkRateLimit stSat "k" 2 60000 0).2 = stSat
    ∧ (∀ r ∈ (runCalls "k" 2 60000 stSat [1, 2]).1, r.allowed = false) := by
  have h := checkRateLimit_count_invariant stSat "k" 2 60000 0 rfl (by decide)
  have h2 := h.2.1 { count := 2, expiresAt := 1000 } (by decide) (by decide)
  have h3 := (h.2.2 { count := 2, expiresAt := 1000 } rfl (by decide) [1, 2] (by decide)).1
  exact ⟨h2.1, h2.2, h3⟩

/-- Helper: from a live entry with count c, a sequence of calls all made
before the expiry, with c + (number of calls) ≤ limit, is allowed
throughout and ends with the count increased by the number of calls and
the expiry unchanged. -/
theorem runCalls_increments (key : String) (limit windowMs e : Nat) (ts : List Nat) :
    ∀ (st : RedisState) (c : Nat), st.up = true →
      st.counters key = some { count := c, expiresAt := e } →
      (∀ t ∈ ts, t < e) →
      c + ts.length ≤ limit →
      (∀ r ∈ (runCalls key limit windowMs st ts).1, r.allowed = true)
      ∧ (runCalls key limit windowMs st ts).2.counters key
          = some { count := c + ts.length, expiresAt := e }
      ∧ (runCalls key limit windowMs st ts).2.up = true := by
  induction ts with
  | nil =>
      intro st c hup hc hts hle
      exact ⟨fun r hr => by simp [runCalls] at hr,
        by simpa [runCalls] using hc, by simpa [runCalls] using hup⟩
  | cons t ts ih =>
      intro st c hup hc hts hle
      have hlive : t < e := hts t (by simp)
      have hg : getCounter st key t = some { count := c, expiresAt := e } := by
        simp [getCounter, hc, hlive]
      have hlt : c < limit := by
        have h' : c + (ts.length + 1) ≤ limit := by simpa using hle
        omega
      have hstep := checkRateLimit_incr st key limit windowMs t
        { count := c, expiresAt := e } hup hg hlt
      have hc' : (setCounter st key { count := c + 1, expiresAt := e }).counters key
          = some { count := c + 1, expiresAt := e } := by simp [setCounter]
      have hrec := ih (setCounter st key { count := c + 1, expiresAt := e }) (c + 1)
        hup hc' (fun u hu => hts u (by simp [hu])) (by simp at hle ⊢; omega)
      refine ⟨?_, ?_, ?_⟩
      · intro r hr
        simp only [runCalls] at hr
        rw [hstep] at hr
        rcases List.mem_cons.mp hr with h1 | h1
        · rw [h1]
        · exact hrec.1 r h1
      · simp only [runCalls]
        rw [hstep, hrec.2.1]
        simp only [Option.some.injEq, CounterEntry.mk.injEq, List.length_cons]
        exact ⟨by omega, trivial⟩
      · simp only [runCalls]
        rw [hstep]
        exact hrec.2.2

/-- C3: fixed-window behaviour for a key with limit N and window W, under
sequential calls: the first call on a fresh key is allowed (creating the
counter), N−1 further calls inside the window are allowed, the (N+1)-th
call inside the window is denied without changing the store, and the
first call at or after the expiry of the window is allowed again,
starting a fresh counter at 1. -/
theorem checkRateLimit_window_cycle (st : RedisState) (key : String)
    (N windowMs t1 : Nat) (ts : List Nat) (td texp : Nat)
    (hup : st.up = true) (hN : 1 ≤ N) (hW : 1000 ≤ windowMs)
    (hfresh : getCounter st key t1 = none)
    (hlen : ts.length = N - 1)
    (hts : ∀ t ∈ ts, t < t1 + windowMs / 1000 * 1000)
    (htd : td < t1 + windowMs / 1000 * 1000)
    (hexp : t1 + windowMs / 1000 * 1000 ≤ texp) :
    (checkRateLimit st key N windowMs t1).1.allowed = true
    ∧ (∀ r ∈ (runCalls key N windowMs (checkRateLimit st key N windowMs t1).2 ts).1,
        r.allowed = true)
    ∧ (checkRateLimit
        (runCalls key N windowMs (checkRateLimit st key N windowMs t1).2 ts).2
        key N windowMs td).1.allowed = false
    ∧ (checkRateLimit
        (runCalls key N windowMs (checkRateLimit st key N windowMs t1).2 ts).2
        key N windowMs td).2
      = (runCalls key N windowMs (checkRateLimit st key N windowMs t1).2 ts).2
    ∧ (checkRateLimit
        (checkRateLimit
          (runCalls key N windowMs (checkRateLimit st key N windowMs t1).2 ts).2
          key N windowMs td).2
        key N windowMs texp).1.allowed = true
    ∧ (checkRateLimit
        (checkRateLimit
          (runCalls key N windowMs (checkRateLimit st key N windowMs t1).2 ts).2
          key N windowMs td).2
        key N windowMs texp).2.counters key
      = some { count := 1, expiresAt := texp + windowMs / 1000 * 1000 } := by
  have hw : windowMs / 1000 ≠ 0 := by
    have h1000 := (Nat.one_le_div_iff (by omega : 0 < 1000)).mpr hW
    omega
  have h1 := checkRateLimit_fresh st key N windowMs t1 hup hfresh hw
  rw [h1]
  dsimp only
  have hc1 : (setCounter st key
      { count := 1, expiresAt := t1 + windowMs / 1000 * 1000 }).counters key
      = some { count := 1, expiresAt := t1 + windowMs / 1000 * 1000 } := by
    simp [setCounter]
  have hmid := runCalls_increments key N windowMs (t1 + windowMs / 1000 * 1000) ts
    (setCounter st key { count := 1, expiresAt := t1 + windowMs / 1000 * 1000 }) 1
    hup hc1 hts (by omega)
  have hcount : 1 + ts.length = N := by omega
  have hc2 := hmid.2.1
  rw [hcount] at hc2
  have hdenied := checkRateLimit_denies
    (runCalls key N windowMs
      (setCounter st key { count := 1, expiresAt := t1 + windowMs / 1000 * 1000 }) ts).2
    key N windowMs td { count := N, expiresAt := t1 + windowMs / 1000 * 1000 }
    hmid.2.2 hc2 htd (Nat.le_refl N)
  rw [hdenied]
  dsimp only
  have hgnone : getCounter
      (runCalls key N windowMs
        (setCounter st key { count := 1, expiresAt := t1 + windowMs / 1000 * 1000 }) ts).2
      key texp = none := by
    simp [getCounter, hc2, Nat.not_lt.mpr hexp]
  have hfinal := checkRateLimit_fresh
    (runCalls key N windowMs
      (setCounter st key { count := 1, expiresAt := t1 + windowMs / 1000 * 1000 }) ts).2
    key N windowMs texp hmid.2.2 hgnone hw
  rw [hfinal]
  dsimp only
  exact ⟨rfl, hmid.1, rfl, rfl, rfl, by simp [setCounter]⟩

/-- Witness for C3 with N = 2, W = 60000 ms: calls at 0 and 10 are
allowed, the third call at 20 (inside the window) is denied leaving the
store unchanged, and a call at 60000 (the expiry) is allowed again with a
fresh counter of 1. -/
theorem checkRateLimit_window_cycle_witness :
    (checkRateLimit st0 "k" 2 60000 0).1.allowed = true
    ∧ (∀ r ∈ (runCalls "k" 2 60000 (checkRateLimit st0 "k" 2 60000 0).2 [10]).1,
        r.allowed = true)
    ∧ (checkRateLimit (runCalls "k" 2 60000 (checkRateLimit st0 "k" 2 60000 0).2 [10]).2
        "k" 2 60000 20).1.allowed = false
    ∧ (checkRateLimit (runCalls "k" 2 60000 (checkRateLimit st0 "k" 2 60000 0).2 [10]).2
        "k" 2 60000 20).2
      = (runCalls "k" 2 60000 (checkRateLimit st0 "k" 2 60000 0).2 [10]).2
    ∧ (checkRateLimit
        (checkRateLimit (runCalls "k" 2 60000 (checkRateLimit st0 "k" 2 60000 0).2 [10]).2
          "k" 2 60000 20).2
        "k" 2 60000 60000).1.allowed = true
    ∧ (checkRateLimit
        (checkRateLimit (runCalls "k" 2 60000 (checkRateLimit st0 "k" 2 60000 0).2 [10]).2
          "k" 2 60000 20).2
        "k" 2 60000 60000).2.counters "k"
      = some { count := 1, expiresAt := 120000 } :=
  checkRateLimit_window_cycle st0 "k" 2 60000 0 [10] 20 60000 rfl (by decide) (by decide)
    rfl (by decide) (by decide) (by decide) (by decide)

/-- C8: querying cooldown status is not effect-free.  On a fresh address
`checkCooldown` creates the address-scoped counter with count 1 (while
reporting that the address can request); on an existing below-limit
counter it increments the count; and with the default address limit of 1,
a `processRequest` for that address issued after a single cooldown query
(valid address, captcha passed, IP limit allowing, still inside the
window) is rejected with the address rate-limit error. -/
theorem checkCooldown_consumes_budget (cfg : Config) (env : Env) (st : RedisState)
    (address token ip : String) (now now2 : Nat)
    (hup : st.up = true)
    (hW : 1000 ≤ cfg.addrWindowMs)
    (hfresh : getCounter st ("address:" ++ toLowerStr address) now = none)
    (hlim : cfg.addrMaxRequests = 1)
    (hv : isValidAddress address = true)
    (hc : (captchaVerify env.captchaEnabled token env.provider).1.success = true)
    (hip : (checkIPRateLimit cfg (checkCooldown cfg st address now).2 ip now2).1.allowed
      = true)
    (hnow2 : now2 < now + cfg.addrWindowMs / 1000 * 1000) :
    (checkCooldown cfg st address now).1.canRequest = true
    ∧ (checkCooldown cfg st address now).2.counters ("address:" ++ toLowerStr address)
        = some { count := 1, expiresAt := now + cfg.addrWindowMs / 1000 * 1000 }
    ∧ (∀ (st' : RedisState) (c e : Nat), st'.up = true →
        getCounter st' ("address:" ++ toLowerStr address) now
          = some { count := c, expiresAt := e } →
        c < cfg.addrMaxRequests →
        (checkCooldown cfg st' address now).2.counters ("address:" ++ toLowerStr address)
          = some { count := c + 1, expiresAt := e })
    ∧ (processRequest cfg env (checkCooldown cfg st address now).2
        address token ip now2).result = .error .rateLimitedAddress := by
  have hw : cfg.addrWindowMs / 1000 ≠ 0 := by
    have h1000 := (Nat.one_le_div_iff (by omega : 0 < 1000)).mpr hW
    omega
  have hstep := checkRateLimit_fresh st ("address:" ++ toLowerStr address)
    cfg.addrMaxRequests cfg.addrWindowMs now hup hfresh hw
  have hst1 : (checkCooldown cfg st address now).2
      = setCounter st ("address:" ++ toLowerStr address)
        { count := 1, expiresAt := now + cfg.addrWindowMs / 1000 * 1000 } := by
    simp [checkCooldown, hstep]
  refine ⟨by simp [checkCooldown, hstep], by rw [hst1]; simp [setCounter], ?_, ?_⟩
  · intro st' c e hup' hg hlt
    have hstep' := checkRateLimit_incr st' ("address:" ++ toLowerStr address)
      cfg.addrMaxRequests cfg.addrWindowMs now { count := c, expiresAt := e } hup' hg hlt
    simp [checkCooldown, hstep', setCounter]
  · have hupc : (checkIPRateLimit cfg (checkCooldown cfg st address now).2 ip now2).2.up
        = true := by
      unfold checkIPRateLimit
      rw [(checkRateLimit_frame (checkCooldown cfg st address now).2 ("ip:" ++ ip)
        cfg.ipMaxRequests cfg.ipWindowMs now2).2.2.1, hst1]
      exact hup
    have hcnt : (checkIPRateLimit cfg (checkCooldown cfg st address now).2 ip now2).2.counters
        ("address:" ++ toLowerStr address)
        = some { count := 1, expiresAt := now + cfg.addrWindowMs / 1000 * 1000 } := by
      unfold checkIPRateLimit
      rw [(checkRateLimit_frame (checkCooldown cfg st address now).2 ("ip:" ++ ip)
        cfg.ipMaxRequests cfg.ipWindowMs now2).2.2.2 ("address:" ++ toLowerStr address)
        (addr_ip_key_ne (toLowerStr address) ip), hst1]
      simp [setCounter]
    have hd := checkRateLimit_denies
      (checkIPRateLimit cfg (checkCooldown cfg st address now).2 ip now2).2
      ("address:" ++ toLowerStr address) cfg.addrMaxRequests cfg.addrWindowMs now2
      { count := 1, expiresAt := now + cfg.addrWindowMs / 1000 * 1000 }
      hupc hcnt hnow2 (by rw [hlim])
    have had : (checkAddressRateLimit cfg
        (checkIPRateLimit cfg (checkCooldown cfg st address now).2 ip now2).2
        address now2).1.allowed = false := by
      unfold checkAddressRateLimit
      rw [hd]
    simp [processRequest, hv, hc, hip, had]

/-- Witness for C8: one cooldown query for a fresh address under the
default configuration (address limit 1, 24 h window) creates the counter
at 1 and causes the next `processRequest` for that address to be rate
limited. -/
theorem checkCooldown_consumes_budget_witness :
    (checkCooldown cfg0 st0 addr0 0).1.canRequest = true
    ∧ (checkCooldown cfg0 st0 addr0 0).2.counters ("address:" ++ toLowerStr addr0)
        = some { count := 1, expiresAt := 86400000 }
    ∧ (processRequest cfg0 envOk (checkCooldown cfg0 st0 addr0 0).2
        addr0 "tok" "1.2.3.4" 5).result = .error .rateLimitedAddress := by
  have h := checkCooldown_consumes_budget cfg0 envOk st0 addr0 "tok" "1.2.3.4" 0 5
    rfl (by decide) rfl rfl (by decide) rfl (by decide) (by decide)
  exact ⟨h.1, h.2.1, h.2.2.2⟩

/-- Counterexample to C3 as stated: with limit 0 the (N+1)-th (here the
first) call inside the window is allowed, not denied; and with a
sub-second window (500 ms) the floor-to-seconds TTL is 0, no counter can
be stored, and the (N+1)-th call inside the window is likewise allowed —
the cycle requires a positive limit and a window of at least one
second. -/
theorem checkRateLimit_window_cycle_cex :
    (checkRateLimit st0 "addr" 0 60000 0).1.allowed = true
    ∧ (checkRateLimit st0 "addr" 1 500 0).1.allowed = true
    ∧ (checkRateLimit (checkRateLimit st0 "addr" 1 500 0).2 "addr" 1 500 100).1.allowed
        = true := by
  decide
